import Mathlib

/-!
Verification of the core of PROYECTO_COPIA_DOCUMENTOS.py: the recursive
paginated Drive walk (obtener_archivos_recursivamente), the snapshot codec
(obtener_snapshot / actualizar_snapshot) and the snapshot differ
(comparar_snapshot), embedded shallowly.

A row of the persisted table is a `Registro` with the five columns
[Ubicación, Nombre, Tipo, Propietario, Fecha de Subida].  A Python dict is
modelled as an association list in insertion order with the dict update
semantics (`dictInsert`): assigning to an existing key replaces the value in
place, assigning to a fresh key appends at the end.
-/

/-- One inventory row: [Ubicación, Nombre, Tipo, Propietario, Fecha de Subida]. -/
structure Registro where
  ubicacion : String
  nombre : String
  tipo : String
  propietario : String
  fecha : String
deriving DecidableEq

/-- A snapshot: a Python dict from derived key to row, as an association list
in insertion order. -/
abbrev Snapshot : Type := List (String × Registro)

/-- The key derivation rule used both in `obtener_snapshot` (line 109) and in
`main` (line 201): `row[0] + "_" + row[1]`. -/
def clave (r : Registro) : String := r.ubicacion ++ "_" ++ r.nombre

/-- The keys of a snapshot, in insertion order. -/
def claves (s : Snapshot) : List String := s.map Prod.fst

/-- `k in dict`: some entry of the snapshot has key `k`. -/
def tieneClave (s : Snapshot) (k : String) : Bool := s.any (fun e => e.1 == k)

/-- Python dict assignment `d[k] = v`: replace in place when the key exists,
append otherwise. -/
def dictInsert (d : Snapshot) (k : String) (v : Registro) : Snapshot :=
  if tieneClave d k then d.map (fun e => if e.1 == k then (k, v) else e)
  else d ++ [(k, v)]

/-- Python dict lookup `d.get(k)`. -/
def dictLookup (d : Snapshot) (k : String) : Option Registro :=
  (d.find? (fun e => e.1 == k)).map Prod.snd

/-- Lines 199-202 of `main`: key the current inventory rows by
`row[0] + "_" + row[1]`, building the dict `snapshot_nuevo`. -/
def snapshotNuevoDe (datos : List Registro) : Snapshot :=
  datos.foldl (fun s row => dictInsert s (clave row) row) []

/-- `obtener_snapshot` (lines 97-111): read the persisted table; fewer than
two rows means no previous data; otherwise drop the header row and key each
remaining row by `row[0] + "_" + row[1]`. -/
def obtener_snapshot (data : List Registro) : Snapshot :=
  if data.length < 2 then []
  else (data.drop 1).foldl (fun s row => dictInsert s (clave row) row) []

/-- The header row written by `actualizar_snapshot` (line 156). -/
def encabezadoSnapshot : Registro :=
  ⟨"Ubicación", "Nombre", "Tipo", "Propietario", "Fecha de Subida"⟩

/-- `actualizar_snapshot` (lines 151-159) as the table it persists: the header
row followed by the data rows. -/
def actualizar_snapshot (datos : List Registro) : List Registro :=
  encabezadoSnapshot :: datos

/-- `comparar_snapshot` (lines 113-127): `nuevos` collects the rows of
`snapshot_nuevo` whose key is not in `snapshot_actual`, `eliminados` the rows
of `snapshot_actual` whose key is not in `snapshot_nuevo`, each in iteration
order. -/
def comparar_snapshot (snapshot_actual snapshot_nuevo : Snapshot) :
    List Registro × List Registro :=
  let nuevos := snapshot_nuevo.foldl
    (fun acc e => if tieneClave snapshot_actual e.1 then acc else acc ++ [e.2]) []
  let eliminados := snapshot_actual.foldl
    (fun acc e => if tieneClave snapshot_nuevo e.1 then acc else acc ++ [e.2]) []
  (nuevos, eliminados)

/-- The entries of `nuevo` whose key is absent from `actual`, with their keys
still attached. -/
def nuevosPares (actual nuevo : Snapshot) : Snapshot :=
  nuevo.filter (fun e => !tieneClave actual e.1)

/-- The entries of `actual` whose key is absent from `nuevo`, with their keys
still attached. -/
def eliminadosPares (actual nuevo : Snapshot) : Snapshot :=
  actual.filter (fun e => !tieneClave nuevo e.1)

/-- Example rows used in concrete witnesses and counterexamples. -/
def regAx : Registro := ⟨"a", "x", "Archivo", "o1", "01/01/2024 00:00:00"⟩

def regAy : Registro := ⟨"a", "y", "Archivo", "o2", "02/01/2024 00:00:00"⟩

def regBx : Registro := ⟨"b", "x", "Carpeta", "o3", "03/01/2024 00:00:00"⟩

/-- A row at location `a_b` named `c`: its derived key is `a_b_c`. -/
def regColision1 : Registro := ⟨"a_b", "c", "Archivo", "o4", "04/01/2024 00:00:00"⟩

/-- A row at location `a` named `b_c`: its derived key is also `a_b_c`. -/
def regColision2 : Registro := ⟨"a", "b_c", "Carpeta", "o5", "05/01/2024 00:00:00"⟩

/-- The Drive folder mime type tested on line 63. -/
def mimeCarpeta : String := "application/vnd.google-apps.folder"

/-- The broken-down timestamp produced by strptime. -/
structure FechaHora where
  anio : Nat
  mes : Nat
  dia : Nat
  hora : Nat
  minuto : Nat
  segundo : Nat
  micro : Nat
deriving DecidableEq

/-- Decimal value of a digit run. -/
def valorDigitos (ds : List Char) : Nat :=
  ds.foldl (fun a c => a * 10 + (c.toNat - 48)) 0

/-- Split off the leading run of decimal digits. -/
def campoNumerico (l : List Char) : List Char × List Char :=
  (l.takeWhile Char.isDigit, l.dropWhile Char.isDigit)

/-- Gregorian leap year, as datetime uses. -/
def esBisiesto (a : Nat) : Bool :=
  (a % 4 == 0 && a % 100 != 0) || a % 400 == 0

/-- Days in a month, as validated by the datetime constructor. -/
def diasEnMes (a m : Nat) : Nat :=
  if m == 2 then (if esBisiesto a then 29 else 28)
  else if m == 4 || m == 6 || m == 9 || m == 11 then 30
  else 31

/-- datetime.strptime(s, "%Y-%m-%dT%H:%M:%S.%fZ") from line 67: exactly four
year digits; one or two digits for month, day, hour, minute, second; one to
six fraction digits; literal separators, with T and Z case insensitive since
strptime compiles its patterns with IGNORECASE; nothing may remain after the
final letter.  Field ranges are those the strptime patterns and the datetime
constructor enforce together: strptime alone admits leap seconds 60 and 61 and
year 0000 and day ranges up to 31 in any month, but the constructor then
rejects seconds above 59, years below 1 and days past the month's end, and the
whole call is one try block, so the net accepted language is the conjunction
below. -/
def parsearFechaDrive (s : String) : Option FechaHora :=
  let (as, r1) := campoNumerico s.toList
  match r1 with
  | '-' :: r1b =>
    let (ms, r2) := campoNumerico r1b
    match r2 with
    | '-' :: r2b =>
      let (ds, r3) := campoNumerico r2b
      match r3 with
      | ct :: r3b =>
        let (hs, r4) := campoNumerico r3b
        match r4 with
        | ':' :: r4b =>
          let (mins, r5) := campoNumerico r4b
          match r5 with
          | ':' :: r5b =>
            let (ss, r6) := campoNumerico r5b
            match r6 with
            | '.' :: r6b =>
              let (fs, r7) := campoNumerico r6b
              match r7 with
              | [cz] =>
                if (ct = 'T' ∨ ct = 't') ∧ (cz = 'Z' ∨ cz = 'z') ∧
                    as.length = 4 ∧ 1 ≤ valorDigitos as ∧
                    1 ≤ ms.length ∧ ms.length ≤ 2 ∧
                    1 ≤ valorDigitos ms ∧ valorDigitos ms ≤ 12 ∧
                    1 ≤ ds.length ∧ ds.length ≤ 2 ∧
                    1 ≤ valorDigitos ds ∧
                    valorDigitos ds ≤ diasEnMes (valorDigitos as) (valorDigitos ms) ∧
                    1 ≤ hs.length ∧ hs.length ≤ 2 ∧ valorDigitos hs ≤ 23 ∧
                    1 ≤ mins.length ∧ mins.length ≤ 2 ∧ valorDigitos mins ≤ 59 ∧
                    1 ≤ ss.length ∧ ss.length ≤ 2 ∧ valorDigitos ss ≤ 59 ∧
                    1 ≤ fs.length ∧ fs.length ≤ 6 then
                  -- strptime right-pads %f with zeros to six digits
                  some ⟨valorDigitos as, valorDigitos ms, valorDigitos ds,
                        valorDigitos hs, valorDigitos mins, valorDigitos ss,
                        valorDigitos fs * 10 ^ (6 - fs.length)⟩
                else none
              | _ => none
            | _ => none
          | _ => none
        | _ => none
      | _ => none
    | _ => none
  | _ => none

/-- A number zero-padded to two digits, as strftime's %d, %m, %H, %M, %S. -/
def dosDigitos (n : Nat) : String :=
  if n < 10 then "0" ++ toString n else toString n

/-- strftime("%d/%m/%Y %H:%M:%S") from line 68.  The year is printed without
padding, as glibc's %Y does; parsed years always have four digits anyway. -/
def formatearFecha (f : FechaHora) : String :=
  dosDigitos f.dia ++ "/" ++ dosDigitos f.mes ++ "/" ++ toString f.anio ++ " " ++
    dosDigitos f.hora ++ ":" ++ dosDigitos f.minuto ++ ":" ++ dosDigitos f.segundo

/-- A Drive entry as the walk sees it: the fields requested on line 54, plus
the listing of its own children as the service would deliver it, page by
page.  A page of `none` is a listing request that raises; `propietarios` is
the optional owner list (each owner reduced to its email string);
`fechaCreacion` is the optional createdTime string. -/
inductive Item : Type where
  | mk (nombre : String) (mimeType : String) (propietarios : Option (List String))
      (fechaCreacion : Option String) (paginas : List (Option (List Item))) : Item

def Item.nombre : Item → String
  | .mk n _ _ _ _ => n

def Item.mimeType : Item → String
  | .mk _ m _ _ _ => m

def Item.propietarios : Item → Option (List String)
  | .mk _ _ o _ _ => o

def Item.fechaCreacion : Item → Option String
  | .mk _ _ _ f _ => f

def Item.paginas : Item → List (Option (List Item))
  | .mk _ _ _ _ p => p

/-- Line 63: the item is a folder exactly when its mime type is the folder
mime type, in which case its Tipo column reads "Carpeta". -/
def esCarpeta (it : Item) : Bool := it.mimeType == mimeCarpeta

/-- Line 65: item.get("createdTime", "No disponible"). -/
def fechaSubidaDe (it : Item) : String := it.fechaCreacion.getD "No disponible"

/-- Lines 62-73: the record appended for one listed item: the current path as
Ubicación; Tipo from the mime type; Propietario the first owner's email when
the owner list is present and non-empty, else "Desconocido"; Fecha the
reformatted creation timestamp when it parses, else the raw string. -/
def mkRegistro (ruta : String) (it : Item) : Registro :=
  { ubicacion := ruta
    nombre := it.nombre
    tipo := if esCarpeta it then "Carpeta" else "Archivo"
    propietario :=
      match it.propietarios with
      | some (e :: _) => e
      | _ => "Desconocido"
    fecha :=
      match parsearFechaDrive (fechaSubidaDe it) with
      | some f => formatearFecha f
      | none => fechaSubidaDe it }

mutual
/-- The page loop of obtener_archivos_recursivamente (lines 50-80): request
pages until none remains; a raising request (line 57-59) is logged and breaks
the loop, keeping what was accumulated so far. -/
def recorrerPaginas (ruta : String) : List (Option (List Item)) → List Registro
  | [] => []
  | none :: _ => []
  | some items :: rest => recorrerItems ruta items ++ recorrerPaginas ruta rest
termination_by pags => sizeOf pags

/-- The item loop inside one page (lines 62-77): append the item's record,
then, if it is a folder, immediately recurse into it with the path extended by
"/" and its name, then continue with the remaining items. -/
def recorrerItems (ruta : String) : List Item → List Registro
  | [] => []
  | Item.mk n m o f pgs :: rest =>
    (mkRegistro ruta (Item.mk n m o f pgs) ::
      (if m == mimeCarpeta then recorrerPaginas (ruta ++ "/" ++ n) pgs else [])) ++
      recorrerItems ruta rest
termination_by its => sizeOf its
end

/-- obtener_archivos_recursivamente (lines 41-81), with the listing service
for the root container supplied as its page list. -/
def obtener_archivos_recursivamente (paginas : List (Option (List Item)))
    (ruta_actual : String) : List Registro :=
  recorrerPaginas ruta_actual paginas

/-- Fixture file "a.txt" of C2. -/
def itemA : Item :=
  .mk "a.txt" "text/plain" (some ["u@example.com"]) (some "2024-01-02T03:04:05.123456Z") []

/-- Fixture file "b.txt" of C2. -/
def itemB : Item :=
  .mk "b.txt" "text/plain" (some ["u@example.com"]) (some "2024-01-02T03:04:05.123456Z") []

/-- Fixture folder "sub" of C2, whose only child is "b.txt". -/
def itemSub : Item :=
  .mk "sub" mimeCarpeta (some ["u@example.com"]) (some "2024-01-02T03:04:05.123456Z")
    [some [itemB]]

/-- The root listing of C2: one page with the file "a.txt" and the folder
"sub". -/
def paginasRaiz : List (Option (List Item)) := [some [itemA, itemSub]]

/-- An item whose owner list is absent. -/
def itemSinPropietario : Item :=
  .mk "f.txt" "text/plain" none (some "2024-01-02T03:04:05.123456Z") []

/-- An item whose creation timestamp does not match the source format. -/
def itemMalFecha : Item := .mk "g.txt" "text/plain" none (some "not-a-date") []

theorem tieneClave_iff (s : Snapshot) (k : String) :
    tieneClave s k = true ↔ k ∈ claves s := by
  simp [tieneClave, claves, List.any_eq_true, List.mem_map]

theorem comparar_foldl (s : Snapshot) (l : Snapshot) (acc : List Registro) :
    l.foldl (fun acc e => if tieneClave s e.1 then acc else acc ++ [e.2]) acc =
      acc ++ (l.filter (fun e => !tieneClave s e.1)).map Prod.snd := by
  induction l generalizing acc with
  | nil => simp
  | cons e l ih =>
    by_cases h : tieneClave s e.1
    · simp [List.foldl_cons, h, ih]
    · simp [List.foldl_cons, h, ih]

theorem comparar_eq (actual nuevo : Snapshot) :
    comparar_snapshot actual nuevo =
      ((nuevosPares actual nuevo).map Prod.snd,
       (eliminadosPares actual nuevo).map Prod.snd) := by
  simp [comparar_snapshot, nuevosPares, eliminadosPares, comparar_foldl]

theorem find?_replace (k k2 : String) (v : Registro) (d : Snapshot) :
    List.find? (fun e => e.1 == k2) (d.map (fun e => if e.1 == k then (k, v) else e)) =
      if k2 = k then Option.map (fun _ => (k, v)) (List.find? (fun e => e.1 == k) d)
      else List.find? (fun e => e.1 == k2) d := by
  induction d with
  | nil => split <;> simp
  | cons e d ih =>
    by_cases he : e.1 = k <;> by_cases hk : k2 = k <;>
      by_cases he2 : e.1 = k2 <;>
      simp_all [List.find?_cons]

theorem dictLookup_insert (d : Snapshot) (k k2 : String) (v : Registro) :
    dictLookup (dictInsert d k v) k2 =
      if k2 = k then some v else dictLookup d k2 := by
  by_cases h : tieneClave d k
  · have hfind : (List.find? (fun e => e.1 == k) d).isSome := by
      rcases List.any_eq_true.mp h with ⟨e, he, hek⟩
      exact List.find?_isSome.mpr ⟨e, he, hek⟩
    simp only [dictInsert, h, if_true, dictLookup, find?_replace]
    rcases Option.isSome_iff_exists.mp hfind with ⟨w, hw⟩
    split <;> simp [hw]
  · simp only [dictInsert, h, if_false, dictLookup, List.find?_append, Bool.false_eq_true]
    by_cases hk : k2 = k
    · subst hk
      have hnone : List.find? (fun e => e.1 == k2) d = none := by
        rw [List.find?_eq_none]
        intro x hx hxk
        exact h (List.any_eq_true.mpr ⟨x, hx, hxk⟩)
      simp [hnone]
    · have : ((k, v).1 == k2) = false := by simpa using Ne.symm hk
      simp [List.find?_cons, this, hk, Option.or]
      cases List.find? (fun e => e.1 == k2) d <;> simp

theorem snapshotNuevoDe_concat (rows : List Registro) (r : Registro) :
    snapshotNuevoDe (rows ++ [r]) = dictInsert (snapshotNuevoDe rows) (clave r) r := by
  simp [snapshotNuevoDe, List.foldl_append]

theorem dictLookup_snapshotNuevoDe (rows : List Registro) (k : String) :
    dictLookup (snapshotNuevoDe rows) k =
      rows.reverse.find? (fun r => clave r == k) := by
  induction rows using List.reverseRecOn with
  | nil => simp [snapshotNuevoDe, dictLookup]
  | append_singleton rows r ih =>
    rw [snapshotNuevoDe_concat, dictLookup_insert, List.reverse_append]
    simp only [List.reverse_singleton, List.singleton_append, List.find?_cons]
    by_cases hk : k = clave r
    · simp [hk]
    · have : (clave r == k) = false := by simpa using Ne.symm hk
      simp [hk, this, ih]

theorem obtener_snapshot_cons (h : Registro) (rows : List Registro) (hne : rows ≠ []) :
    obtener_snapshot (h :: rows) = snapshotNuevoDe rows := by
  have hpos : 0 < rows.length := List.length_pos.mpr hne
  have hlen : ¬(h :: rows).length < 2 := by
    simp only [List.length_cons]
    omega
  unfold obtener_snapshot
  rw [if_neg hlen]
  rfl

theorem pares_exactos (s t : Snapshot) (k : String) (r : Registro)
    (ht : (claves t).Nodup) (hmem : (k, r) ∈ t) (habs : k ∉ claves s) :
    (k, r) ∈ t.filter (fun e => !tieneClave s e.1) ∧
      (t.filter (fun e => !tieneClave s e.1)).countP (fun e => e.1 == k) = 1 := by
  have hks : ¬tieneClave s k = true := fun hh => habs ((tieneClave_iff s k).mp hh)
  refine ⟨List.mem_filter.mpr ⟨hmem, by simp [Bool.not_eq_true] at hks ⊢; simp [hks]⟩, ?_⟩
  rw [List.countP_filter]
  rw [List.countP_congr (q := fun e => e.1 == k) ?_]
  · have h1 : t.countP (fun e => e.1 == k) = (claves t).count k := by
      simp [claves, List.count, List.countP_map]
      rfl
    rw [h1]
    exact List.count_eq_one_of_mem ht (List.mem_map.mpr ⟨(k, r), hmem, rfl⟩)
  · intro x hx
    constructor
    · intro hh
      rw [Bool.and_eq_true] at hh
      exact hh.1
    · intro hh
      have hxk : x.1 = k := by simpa using hh
      rw [Bool.and_eq_true]
      refine ⟨hh, ?_⟩
      rw [hxk]
      simp [Bool.not_eq_true] at hks ⊢
      simp [hks]

theorem pares_sin_comunes (s t : Snapshot) (k : String) (hs : k ∈ claves s) :
    k ∉ claves (t.filter (fun e => !tieneClave s e.1)) := by
  intro hmem
  rcases List.mem_map.mp hmem with ⟨e, he, hek⟩
  have h2 := (List.mem_filter.mp he).2
  have hks : tieneClave s k = true := (tieneClave_iff s k).mpr hs
  rw [hek] at h2
  simp [hks] at h2

theorem claves_dictInsert (d : Snapshot) (k : String) (v : Registro) :
    claves (dictInsert d k v) =
      if tieneClave d k then claves d else claves d ++ [k] := by
  unfold dictInsert
  by_cases h : tieneClave d k
  · rw [if_pos h, if_pos h]
    simp only [claves, List.map_map]
    apply List.map_congr_left
    intro e he
    by_cases hek : e.1 = k <;> simp [hek]
  · rw [if_neg h, if_neg h]
    simp [claves]

theorem claves_nodup_snapshotNuevoDe (rows : List Registro) :
    (claves (snapshotNuevoDe rows)).Nodup := by
  induction rows using List.reverseRecOn with
  | nil => simp [snapshotNuevoDe, claves]
  | append_singleton rows r ih =>
    rw [snapshotNuevoDe_concat, claves_dictInsert]
    by_cases h : tieneClave (snapshotNuevoDe rows) (clave r)
    · rw [if_pos h]
      exact ih
    · rw [if_neg h]
      have hnm : clave r ∉ claves (snapshotNuevoDe rows) :=
        fun hm => h ((tieneClave_iff _ _).mpr hm)
      simp [List.nodup_append, ih, List.Disjoint]
      intro a ha hc
      rw [hc] at ha
      exact hnm ha

/-- Claim C1: partition property of the differ.  For snapshots with distinct
keys (the Python dict invariant), `comparar_snapshot previous current` returns
`nuevos` listing exactly the rows of `current` whose key is absent from
`previous` (one entry per such key, namely the current row, keys attached in
`nuevosPares`), `eliminados` listing exactly the rows of `previous` whose key
is absent from `current`, and a key present in both snapshots contributes to
neither list, even when the two rows differ in other attributes. -/
theorem comparar_snapshot_particion (prev cur : Snapshot) (k : String) (r : Registro)
    (hp : (claves prev).Nodup) (hc : (claves cur).Nodup) :
    (comparar_snapshot prev cur).1 = (nuevosPares prev cur).map Prod.snd ∧
    (comparar_snapshot prev cur).2 = (eliminadosPares prev cur).map Prod.snd ∧
    ((k, r) ∈ cur → k ∉ claves prev →
      (k, r) ∈ nuevosPares prev cur ∧
      (nuevosPares prev cur).countP (fun e => e.1 == k) = 1) ∧
    ((k, r) ∈ prev → k ∉ claves cur →
      (k, r) ∈ eliminadosPares prev cur ∧
      (eliminadosPares prev cur).countP (fun e => e.1 == k) = 1) ∧
    (k ∈ claves prev → k ∈ claves cur →
      k ∉ claves (nuevosPares prev cur) ∧ k ∉ claves (eliminadosPares prev cur)) := by
  refine ⟨by rw [comparar_eq], by rw [comparar_eq], ?_, ?_, ?_⟩
  · intro hmem habs
    exact pares_exactos prev cur k r hc hmem habs
  · intro hmem habs
    exact pares_exactos cur prev k r hp hmem habs
  · intro hkp hkc
    exact ⟨pares_sin_comunes prev cur k hkp, pares_sin_comunes cur prev k hkc⟩

/-- Witness for C1 at concrete snapshots: previous holds only `regAx`
(key `a_x`), current holds only `regAy` (key `a_y`). -/
theorem comparar_snapshot_particion_witness :
    (claves [(("a_x" : String), regAx)]).Nodup ∧
    (claves [(("a_y" : String), regAy)]).Nodup ∧
    ((comparar_snapshot [("a_x", regAx)] [("a_y", regAy)]).1 =
       (nuevosPares [("a_x", regAx)] [("a_y", regAy)]).map Prod.snd ∧
     (comparar_snapshot [("a_x", regAx)] [("a_y", regAy)]).2 =
       (eliminadosPares [("a_x", regAx)] [("a_y", regAy)]).map Prod.snd ∧
     ((("a_y" : String), regAy) ∈ ([(("a_y" : String), regAy)] : Snapshot) →
       "a_y" ∉ claves [("a_x", regAx)] →
       (("a_y" : String), regAy) ∈ nuevosPares [("a_x", regAx)] [("a_y", regAy)] ∧
       (nuevosPares [("a_x", regAx)] [("a_y", regAy)]).countP (fun e => e.1 == "a_y") = 1) ∧
     ((("a_y" : String), regAy) ∈ ([(("a_x" : String), regAx)] : Snapshot) →
       "a_y" ∉ claves [("a_y", regAy)] →
       (("a_y" : String), regAy) ∈ eliminadosPares [("a_x", regAx)] [("a_y", regAy)] ∧
       (eliminadosPares [("a_x", regAx)] [("a_y", regAy)]).countP (fun e => e.1 == "a_y") = 1) ∧
     ("a_y" ∈ claves [("a_x", regAx)] → "a_y" ∈ claves [("a_y", regAy)] →
       "a_y" ∉ claves (nuevosPares [("a_x", regAx)] [("a_y", regAy)]) ∧
       "a_y" ∉ claves (eliminadosPares [("a_x", regAx)] [("a_y", regAy)]))) :=
  ⟨by decide, by decide,
   comparar_snapshot_particion [("a_x", regAx)] [("a_y", regAy)] "a_y" regAy
     (by decide) (by decide)⟩

/-- Claim C6: symmetry of the differ.  For all snapshots `A` and `B`, the
added list of `comparar_snapshot A B` is the removed list of
`comparar_snapshot B A`, and conversely. -/
theorem comparar_snapshot_simetria (A B : Snapshot) :
    (comparar_snapshot A B).1 = (comparar_snapshot B A).2 ∧
    (comparar_snapshot A B).2 = (comparar_snapshot B A).1 :=
  ⟨rfl, rfl⟩

/-- Claim C3: snapshot codec round-trip.  For a non-empty record list with
pairwise-distinct (location, name) pairs, decoding the table written by
`actualizar_snapshot` (header row prepended to the records) yields exactly the
dict obtained by keying each record directly by `location + "_" + name`, the
rule used for the current inventory in `main`. -/
theorem obtener_actualizar_ida_vuelta (recs : List Registro) (hne : recs ≠ [])
    (hdist : recs.Pairwise (fun a b => (a.ubicacion, a.nombre) ≠ (b.ubicacion, b.nombre))) :
    obtener_snapshot (actualizar_snapshot recs) = snapshotNuevoDe recs := by
  unfold actualizar_snapshot
  exact obtener_snapshot_cons _ _ hne

/-- Witness for C3 at the two-record list `[regAx, regAy]`. -/
theorem obtener_actualizar_ida_vuelta_witness :
    ([regAx, regAy] ≠ ([] : List Registro)) ∧
    List.Pairwise (fun a b => (a.ubicacion, a.nombre) ≠ (b.ubicacion, b.nombre))
      [regAx, regAy] ∧
    obtener_snapshot (actualizar_snapshot [regAx, regAy]) = snapshotNuevoDe [regAx, regAy] :=
  ⟨by decide, by decide,
   obtener_actualizar_ida_vuelta [regAx, regAy] (by decide) (by decide)⟩

/-- Claim C9: the derived key `location + "_" + name` is not injective on
(location, name) pairs: `("a_b", "c")` and `("a", "b_c")` collide on key
`a_b_c`, so the snapshot dicts and the differ identify two rows that differ
in both location and name: diffing one against the other reports no change. -/
theorem clave_no_inyectiva :
    clave regColision1 = clave regColision2 ∧
    regColision1.ubicacion ≠ regColision2.ubicacion ∧
    regColision1.nombre ≠ regColision2.nombre ∧
    comparar_snapshot (snapshotNuevoDe [regColision1]) (snapshotNuevoDe [regColision2]) =
      ([], []) := by
  decide

/-- Claim C10: last-wins on key collision.  Both for the current-inventory
keying in `main` and for `obtener_snapshot` decoding persisted rows, the dict
maps each key to the last input row deriving that key (lookup equals
`find?` on the reversed row list), and holds at most one entry per key, so
every earlier colliding row is dropped before diffing. -/
theorem snapshot_ultima_gana (rows : List Registro) (k : String) :
    dictLookup (snapshotNuevoDe rows) k =
      rows.reverse.find? (fun r => clave r == k) ∧
    dictLookup (obtener_snapshot (encabezadoSnapshot :: rows)) k =
      rows.reverse.find? (fun r => clave r == k) ∧
    (claves (snapshotNuevoDe rows)).Nodup := by
  refine ⟨dictLookup_snapshotNuevoDe rows k, ?_, claves_nodup_snapshotNuevoDe rows⟩
  cases rows with
  | nil => simp [obtener_snapshot, dictLookup]
  | cons a l =>
    rw [obtener_snapshot_cons _ _ (List.cons_ne_nil a l)]
    exact dictLookup_snapshotNuevoDe (a :: l) k

theorem recorrerItems_cons (ruta : String) (item : Item) (rest : List Item) :
    recorrerItems ruta (item :: rest) =
      mkRegistro ruta item ::
        ((if esCarpeta item then
            recorrerPaginas (ruta ++ "/" ++ item.nombre) item.paginas
          else []) ++ recorrerItems ruta rest) := by
  cases item with
  | mk n m o f pgs =>
    rw [recorrerItems]
    simp [esCarpeta, Item.nombre, Item.mimeType, Item.paginas, List.cons_append]

theorem recorrerItems_append (ruta : String) (a b : List Item) :
    recorrerItems ruta (a ++ b) = recorrerItems ruta a ++ recorrerItems ruta b := by
  induction a with
  | nil => simp [recorrerItems]
  | cons item rest ih =>
    rw [List.cons_append, recorrerItems_cons, recorrerItems_cons, ih]
    simp

theorem recorrerPaginas_buenas (ruta : String) (previas : List (List Item))
    (tail : List (Option (List Item))) :
    recorrerPaginas ruta (previas.map some ++ tail) =
      recorrerItems ruta previas.flatten ++ recorrerPaginas ruta tail := by
  induction previas with
  | nil => simp [recorrerItems]
  | cons a t ih =>
    rw [List.map_cons, List.cons_append, recorrerPaginas, ih, List.flatten_cons,
      recorrerItems_append]
    simp

/-- Claim C2: walk order and locations.  On the fixture root with direct
children the file "a.txt" and the folder "sub" holding only "b.txt", walking
with root label "Root" yields exactly three records with locations
["Root", "Root", "Root/sub"] and names ["a.txt", "sub", "b.txt"], in that
order; and in general the walk is depth-first pre-order: a folder's own
record precedes its descendants' records, whose location is the parent's
location extended by "/" and the folder's name. -/
theorem caminata_preorden :
    (obtener_archivos_recursivamente paginasRaiz "Root").map Registro.ubicacion =
      ["Root", "Root", "Root/sub"] ∧
    (obtener_archivos_recursivamente paginasRaiz "Root").map Registro.nombre =
      ["a.txt", "sub", "b.txt"] ∧
    (obtener_archivos_recursivamente paginasRaiz "Root").length = 3 ∧
    ∀ (ruta : String) (item : Item) (rest : List Item),
      recorrerItems ruta (item :: rest) =
        mkRegistro ruta item ::
          ((if esCarpeta item then
              recorrerPaginas (ruta ++ "/" ++ item.nombre) item.paginas
            else []) ++ recorrerItems ruta rest) := by
  refine ⟨?_, ?_, ?_, recorrerItems_cons⟩ <;>
    simp [obtener_archivos_recursivamente, paginasRaiz, itemA, itemSub, itemB,
      recorrerPaginas, recorrerItems, mkRegistro, esCarpeta, Item.nombre,
      Item.mimeType, Item.paginas, mimeCarpeta]

/-- Claim C4: pagination transparency.  For any split of a container's
children into successful pages, the walk yields the same flattened record
list as a single page holding all the children, whatever the nested page
structure of the items themselves. -/
theorem paginacion_transparente (ruta : String) (trozos : List (List Item)) :
    obtener_archivos_recursivamente (trozos.map some) ruta =
      obtener_archivos_recursivamente [some trozos.flatten] ruta := by
  unfold obtener_archivos_recursivamente
  have h1 : trozos.map some = trozos.map some ++ [] := by simp
  have h2 : ([some trozos.flatten] : List (Option (List Item))) =
      [trozos.flatten].map some ++ [] := by simp
  rw [h1, h2, recorrerPaginas_buenas, recorrerPaginas_buenas]
  simp

/-- Claim C5: partial-failure tolerance.  A failing page request ends the
page loop for that container: the records of all earlier pages (subfolders
included) are kept, the failing page and any later page contribute nothing,
and the result is exactly what a clean listing of the earlier pages yields —
the walk itself is a total function, so no exception escapes it; siblings
after a folder (whatever failures its pages hold) are still walked. -/
theorem fallo_parcial_trunca (ruta : String) (previas : List (List Item))
    (resto : List (Option (List Item))) (item : Item) (rest : List Item) :
    obtener_archivos_recursivamente (previas.map some ++ none :: resto) ruta =
      recorrerItems ruta previas.flatten ∧
    obtener_archivos_recursivamente (previas.map some) ruta =
      recorrerItems ruta previas.flatten ∧
    recorrerItems ruta (item :: rest) =
      mkRegistro ruta item ::
        ((if esCarpeta item then
            recorrerPaginas (ruta ++ "/" ++ item.nombre) item.paginas
          else []) ++ recorrerItems ruta rest) := by
  refine ⟨?_, ?_, recorrerItems_cons ruta item rest⟩
  · unfold obtener_archivos_recursivamente
    rw [recorrerPaginas_buenas, recorrerPaginas]
    simp
  · unfold obtener_archivos_recursivamente
    have h1 : previas.map some = previas.map some ++ [] := by simp
    rw [h1, recorrerPaginas_buenas]
    simp [recorrerPaginas]

/-- Claim C7: timestamp fallback.  The record the walk produces for an item
carries, in its Fecha column, the reformatted timestamp when the source
string parses under the source format, and the source string verbatim when it
does not, never raising (the walk is total); concretely, "not-a-date" is kept
verbatim while "2024-01-02T03:04:05.123456Z" becomes
"02/01/2024 03:04:05". -/
theorem fecha_respaldo (ruta : String) (item : Item) (rest : List Item) :
    (recorrerItems ruta (item :: rest)).head? = some (mkRegistro ruta item) ∧
    (mkRegistro ruta item).fecha =
      ((parsearFechaDrive (fechaSubidaDe item)).map formatearFecha).getD
        (fechaSubidaDe item) ∧
    parsearFechaDrive "not-a-date" = none ∧
    (mkRegistro "Root" itemMalFecha).fecha = "not-a-date" ∧
    parsearFechaDrive "2024-01-02T03:04:05.123456Z" =
      some ⟨2024, 1, 2, 3, 4, 5, 123456⟩ ∧
    (mkRegistro "Root" itemA).fecha = "02/01/2024 03:04:05" := by
  refine ⟨?_, ?_, by decide, by decide, by decide, by decide⟩
  · rw [recorrerItems_cons]
    rfl
  · unfold mkRegistro
    cases parsearFechaDrive (fechaSubidaDe item) <;> simp

/-- Claim C8 as stated is false at a concrete input: an item with no owner
list yields the sentinel "Desconocido", not the string "Unknown". -/
theorem propietario_contraejemplo :
    (mkRegistro "Root" itemSinPropietario).propietario = "Desconocido" ∧
    (mkRegistro "Root" itemSinPropietario).propietario ≠ "Unknown" := by
  decide

/-- Claim C8 amended: the record's owner is the email string of the first
owner when the item's owner list is present and non-empty, and the sentinel
"Desconocido" (the code's Spanish spelling of the spec's "Unknown") when the
owner list is absent or empty. -/
theorem propietario_primero (ruta : String) (item : Item) (rest : List Item) :
    (recorrerItems ruta (item :: rest)).head? = some (mkRegistro ruta item) ∧
    (mkRegistro ruta item).propietario =
      ((item.propietarios.getD []).head?).getD "Desconocido" := by
  refine ⟨?_, ?_⟩
  · rw [recorrerItems_cons]
    rfl
  · unfold mkRegistro
    rcases h : item.propietarios with _ | ⟨_ | ⟨e, l⟩⟩ <;> simp
